import Mathlib

/-!
Verification of the snapshot-scheduling and data-reshaping core of the
sharp-shooter NFL betting data collector.

The definitions below are a shallow embedding of the Python source:
  - src/data_collector.py   (NFLDataCollector: scheduling, filtering, shaping)
  - src/odds_api_client.py  (OddsAPIClient: market display names)

Numeric odds/line values from the JSON feed are modelled as Rat; a missing
value (Python None or the empty-string default) is modelled as none of
Option Rat.  Python dicts used as insertion-ordered grouping maps are
modelled as association lists that preserve insertion order.
-/

namespace SharpShooter

/-! ## Calendar model

The collector reads the host local time via datetime.now(): it uses the
local calendar date, the weekday (Python weekday(): Monday = 0), the
lowercase day name (strftime %A, lowercased) and the hour. -/

structure Date where
  year : Nat
  month : Nat
  day : Nat
deriving DecidableEq, Repr

inductive Weekday where
  | monday | tuesday | wednesday | thursday | friday | saturday | sunday
deriving DecidableEq, Repr

/-- Python datetime.weekday(): Monday = 0 ... Sunday = 6. -/
def Weekday.pyNum : Weekday → Nat
  | .monday => 0
  | .tuesday => 1
  | .wednesday => 2
  | .thursday => 3
  | .friday => 4
  | .saturday => 5
  | .sunday => 6

/-- Python now.strftime(%A).lower(). -/
def Weekday.day_name : Weekday → String
  | .monday => "monday"
  | .tuesday => "tuesday"
  | .wednesday => "wednesday"
  | .thursday => "thursday"
  | .friday => "friday"
  | .saturday => "saturday"
  | .sunday => "sunday"

/-- The local wall-clock information the collector actually reads from
datetime.now(): calendar date, weekday and hour. -/
structure LocalNow where
  date : Date
  weekday : Weekday
  hour : Nat
deriving DecidableEq, Repr

def isLeapYear (y : Nat) : Bool :=
  y % 4 = 0 && (y % 100 != 0 || y % 400 = 0)

def daysInMonth (y m : Nat) : Nat :=
  if m = 2 then (if isLeapYear y then 29 else 28)
  else if m = 4 || m = 6 || m = 9 || m = 11 then 30
  else 31

/-- Python date + timedelta(days=1). -/
def nextDay (d : Date) : Date :=
  if d.day < daysInMonth d.year d.month then { d with day := d.day + 1 }
  else if d.month < 12 then { year := d.year, month := d.month + 1, day := 1 }
  else { year := d.year + 1, month := 1, day := 1 }

/-! ## Small string helpers (Python idioms) -/

/-- pat begins the character list. -/
def charsPrefix : List Char → List Char → Bool
  | [], _ => true
  | _ :: _, [] => false
  | p :: ps, c :: cs => p == c && charsPrefix ps cs

/-- pat occurs somewhere in the character list. -/
def charsContains (pat : List Char) : List Char → Bool
  | [] => charsPrefix pat []
  | c :: ts => charsPrefix pat (c :: ts) || charsContains pat ts

/-- Python substring test (the in operator): pat occurs in s. -/
def strContains (s pat : String) : Bool :=
  charsContains pat.data s.data

/-- Python s.replace(" ", ""): drop every space character. -/
def stripSpaces (s : String) : String :=
  String.mk (s.data.filter (fun c => c != ' '))

/-- Python s.lower(), character by character. -/
def strLower (s : String) : String :=
  String.mk (s.data.map Char.toLower)

/-- Python s[:n] character slice. -/
def strTake (s : String) (n : Nat) : String :=
  String.mk (s.data.take n)

def digitVal (c : Char) : Option Nat :=
  if c.isDigit then some (c.toNat - 48) else none

/-- Parse of a UTC ISO-8601 timestamp of the shape the odds API emits
(YYYY-MM-DDTHH:MM:SSZ): the collector calls datetime.fromisoformat after
rewriting the Z suffix and then reads only the UTC date and the UTC hour.
A ValueError (malformed input) is modelled as none; the caller skips the
record. -/
def parseUTC (s : String) : Option (Date × Nat) :=
  match s.data.take 13 with
  | [y1, y2, y3, y4, '-', m1, m2, '-', d1, d2, 'T', h1, h2] => do
    let a ← digitVal y1
    let b ← digitVal y2
    let c ← digitVal y3
    let d ← digitVal y4
    let e ← digitVal m1
    let f ← digitVal m2
    let g ← digitVal d1
    let h ← digitVal d2
    let i ← digitVal h1
    let j ← digitVal h2
    let y := 1000 * a + 100 * b + 10 * c + d
    let mo := 10 * e + f
    let da := 10 * g + h
    let hr := 10 * i + j
    if 1 ≤ mo ∧ mo ≤ 12 ∧ 1 ≤ da ∧ da ≤ daysInMonth y mo ∧ hr < 24 then
      some (⟨y, mo, da⟩, hr)
    else none
  | _ => none

/-! ## TimeWindowResolver: NFLDataCollector._determine_current_snapshot -/

/-- The day/hour window matrix (the first block of
_determine_current_snapshot); d is the Python weekday number, h the hour. -/
def snapshot_window (d h : Nat) : Option Nat :=
  if d = 1 then (if h ≥ 10 then some 1 else none)
  else if d = 3 then (if h ≥ 15 then some 2 else none)
  else if d = 4 then (if h ≥ 15 then some 3 else none)
  else if d = 5 then (if h ≥ 10 then some 4 else none)
  else if d = 6 then (if h ≥ 8 ∧ h < 13 then some 5 else none)
  else if d = 0 then (if h ≥ 15 then some 6 else none)
  else none

/-- The fallback block of _determine_current_snapshot, kept exactly as in
the source: the whole chain is guarded by day_of_week >= 1, so the final
day_of_week == 0 branch inside it can never fire. -/
def snapshot_fallback (d : Nat) : Option Nat :=
  if d ≥ 1 then
    if d = 1 then some 1
    else if d = 2 then some 2
    else if d = 3 then some 2
    else if d = 4 then some 3
    else if d = 5 then some 4
    else if d = 6 then some 5
    else if d = 0 then some 6
    else none
  else none

/-- NFLDataCollector._determine_current_snapshot: window rules first, then
the fallback chain, then None. -/
def determine_current_snapshot (now : LocalNow) : Option Nat :=
  match snapshot_window now.weekday.pyNum now.hour with
  | some n => some n
  | none => snapshot_fallback now.weekday.pyNum

/-- NFLDataCollector._get_next_collection_time. -/
def get_next_collection_time (now : LocalNow) : String :=
  let d := now.weekday.pyNum
  let h := now.hour
  if d < 1 ∨ (d = 1 ∧ h < 10) then
    "Next Tuesday 10 AM+ (Snapshot 1 - Opening Lines)"
  else if d < 3 ∨ (d = 3 ∧ h < 15) then
    "Next Thursday 3 PM+ (Snapshot 2 - Thursday Night Football)"
  else if d < 4 ∨ (d = 4 ∧ h < 15) then
    "Next Friday 3 PM+ (Snapshot 3 - Friday Games if any)"
  else if d < 5 ∨ (d = 5 ∧ h < 10) then
    "Next Saturday 10 AM+ (Snapshot 4 - Saturday Games)"
  else if d < 6 ∨ (d = 6 ∧ h < 8) then
    "Next Sunday 8 AM-1 PM (Snapshot 5 - Sunday Games)"
  else if d = 6 ∧ h ≥ 13 then
    "Next Monday 3 PM+ (Snapshot 6 - Monday Night Football)"
  else if d = 0 ∧ h < 15 then
    "Next Monday 3 PM+ (Snapshot 6 - Monday Night Football)"
  else
    "Next Tuesday 10 AM+ (Snapshot 1 - New Week Opening Lines)"

/-! ## Raw API data model (games → bookmakers → markets → outcomes) -/

/-- One outcome inside a market: name plus optional point and price.
dict.get with an empty-string default (or a missing JSON key) is modelled
as none. -/
structure Outcome where
  name : String
  point : Option Rat := none
  price : Option Rat := none
deriving DecidableEq, Repr

structure MarketData where
  key : String
  outcomes : List Outcome
deriving DecidableEq, Repr

structure BookmakerData where
  title : String
  markets : List MarketData
deriving DecidableEq, Repr

structure RawGame where
  id : String
  commence_time : String
  home_team : String
  away_team : String
  bookmakers : List BookmakerData
deriving DecidableEq, Repr

/-! ## Game identity: NFLDataCollector._generate_game_id -/

/-- team.replace(" ", "")[:4].upper(). -/
def teamAbbr (s : String) : String :=
  String.mk (((stripSpaces s).data.take 4).map Char.toUpper)

/-- NFLDataCollector._generate_game_id. -/
def generate_game_id (game : RawGame) : String :=
  "NFL_2025_" ++ strTake game.commence_time 10 ++ "_" ++
    teamAbbr game.away_team ++ "_" ++ teamAbbr game.home_team

/-! ## OddsShaper: NFLDataCollector._process_games_for_snapshot

The Python code builds a flat dict with eighteen columns named
opening_* and final_* (nine per side) and writes, via the computed
prefix f-string, only into the side selected by the snapshot number.
Here the two groups of nine columns are the two SnapCols components of a
GameRow, and the computed-prefix write is writeSnap. -/

structure SnapCols where
  spread_line : Option Rat := none
  spread_home_odds : Option Rat := none
  spread_away_odds : Option Rat := none
  collected_date : String := ""
  total_line : Option Rat := none
  total_over_odds : Option Rat := none
  total_under_odds : Option Rat := none
  ml_home : Option Rat := none
  ml_away : Option Rat := none
deriving DecidableEq, Repr

structure GameRow where
  game_id : String
  date : String
  home_team : String
  away_team : String
  bookmaker : String
  opening : SnapCols := {}
  final : SnapCols := {}
deriving DecidableEq, Repr

/-- snapshot_type = "opening" if snapshot_num == 1 else "final". -/
def snapshot_type (snapshot_num : Nat) : String :=
  if snapshot_num = 1 then "opening" else "final"

/-- One dynamic-field write game_snapshot[f"{kind}_..."] = v. -/
def writeSnap (row : GameRow) (kind : String) (f : SnapCols → SnapCols) : GameRow :=
  if kind = "opening" then { row with opening := f row.opening }
  else { row with final := f row.final }

/-- The body of the per-market loop in _process_games_for_snapshot. -/
def processMarket (home away kind ts : String) (row : GameRow)
    (m : MarketData) : GameRow :=
  if m.key = "spreads" ∧ ¬ m.outcomes.isEmpty then
    let row := m.outcomes.foldl (fun r o =>
      if o.name = home then
        writeSnap r kind (fun s =>
          { s with spread_line := o.point, spread_home_odds := o.price })
      else if o.name = away then
        writeSnap r kind (fun s => { s with spread_away_odds := o.price })
      else r) row
    writeSnap row kind (fun s => { s with collected_date := ts })
  else if m.key = "totals" ∧ ¬ m.outcomes.isEmpty then
    m.outcomes.foldl (fun r o =>
      if strContains o.name "Over" then
        writeSnap r kind (fun s =>
          { s with total_line := o.point, total_over_odds := o.price })
      else if strContains o.name "Under" then
        writeSnap r kind (fun s => { s with total_under_odds := o.price })
      else r) row
  else if m.key = "h2h" ∧ ¬ m.outcomes.isEmpty then
    m.outcomes.foldl (fun r o =>
      if o.name = home then
        writeSnap r kind (fun s => { s with ml_home := o.price })
      else if o.name = away then
        writeSnap r kind (fun s => { s with ml_away := o.price })
      else r) row
  else row

/-- NFLDataCollector._process_games_for_snapshot: one row per bookmaker of
each game; games without bookmakers and bookmakers without markets are
skipped. -/
def process_games_for_snapshot (games_data : List RawGame)
    (snapshot_num : Nat) (timestamp : String) : List GameRow :=
  games_data.flatMap (fun game =>
    if game.bookmakers.isEmpty then []
    else
      game.bookmakers.flatMap (fun bk =>
        if bk.markets.isEmpty then []
        else
          let base : GameRow :=
            { game_id := generate_game_id game
              date := game.commence_time
              home_team := game.home_team
              away_team := game.away_team
              bookmaker := bk.title }
          [bk.markets.foldl
            (processMarket game.home_team game.away_team
              (snapshot_type snapshot_num) timestamp) base]))

/-! ## Raw prop outcomes as produced by OddsAPIClient._process_player_props -/

structure RawProp where
  game_id : String
  commence_time : String
  home_team : String
  away_team : String
  bookmaker : String
  market_type : String
  player_name : String
  line_type : String
  line_value : Option Rat
  odds : Option Rat
  collected_at : String := ""
deriving DecidableEq, Repr

/-- OddsAPIClient._market_display_name. -/
def market_display_name (market_key : String) : String :=
  if market_key = "player_pass_yds" then "Passing Yards"
  else if market_key = "player_pass_tds" then "Passing TDs"
  else if market_key = "player_rush_yds" then "Rushing Yards"
  else if market_key = "player_receptions" then "Receptions"
  else if market_key = "player_reception_yds" then "Receiving Yards"
  else if market_key = "player_anytime_td" then "Anytime TD"
  else market_key

/-- NFLDataCollector._extract_position_from_market. -/
def extract_position_from_market (market_type : String) : String :=
  if strContains (strLower market_type) "pass" then "QB"
  else if strContains (strLower market_type) "rush" then "RB/QB"
  else if strContains (strLower market_type) "receiv" then "WR/TE/RB"
  else "Unknown"

/-- NFLDataCollector._determine_player_team: an acknowledged placeholder
that ignores its arguments. -/
def determine_player_team (_prop : RawProp) (_home _away : String) : String :=
  "TBD"

/-- NFLDataCollector._should_collect_props_for_snapshot. -/
def should_collect_props_for_snapshot (snapshot_num : Nat) : Bool :=
  1 < snapshot_num

/-- NFLDataCollector._separate_anytime_td_props: (regular, anytime TD). -/
def separate_anytime_td_props (props : List RawProp) :
    List RawProp × List RawProp :=
  (props.filter (fun p => !(p.market_type == "Anytime TD")),
   props.filter (fun p => p.market_type == "Anytime TD"))

/-- Python x or "" applied to an optional numeric: None and 0 are falsy,
so both render as the empty field. -/
def orEmpty (v : Option Rat) : Option Rat :=
  match v with
  | none => none
  | some q => if q = 0 then none else some q

/-! ## Insertion-ordered grouping dict

Both prop shapers run the same loop: look the key up in a dict, insert an
initial record if absent, then update the record from the outcome.  The
dict (insertion ordered, as in Python) is an association list. -/

section Grouping

variable {α β : Type}

/-- findVal k m: dict lookup. -/
def findVal (k : String) : List (String × β) → Option β
  | [] => none
  | e :: es => if e.1 = k then some e.2 else findVal k es

/-- One iteration of the grouping loop: if key p not in dict, insert
init p; then update the entry at key p by upd. -/
def groupStep (key : α → String) (init : α → β) (upd : β → α → β)
    (m : List (String × β)) (p : α) : List (String × β) :=
  if m.any (fun e => e.1 == key p) then
    m.map (fun e => if e.1 == key p then (e.1, upd e.2 p) else e)
  else
    m ++ [(key p, upd (init p) p)]

/-- The whole grouping loop over the raw outcome list. -/
def groupRun (key : α → String) (init : α → β) (upd : β → α → β)
    (ps : List α) : List (String × β) :=
  ps.foldl (groupStep key init upd) []

end Grouping

/-! ## PropShaper: NFLDataCollector._process_props_for_snapshot -/

/-- The accumulator dict entry of _process_props_for_snapshot. -/
structure PropAcc where
  game_id : String
  player_name : String
  position : String
  team : String
  market_type : String
  bookmaker : String
  data_source : String
  over_line : Option Rat
  over_odds : Option Rat
  under_line : Option Rat
  under_odds : Option Rat
deriving DecidableEq, Repr

structure PropRow where
  game_id : String
  player_name : String
  position : String
  team : String
  market_type : String
  bookmaker : String
  data_source : String
  over_line : Option Rat
  over_odds : Option Rat
  under_line : Option Rat
  under_odds : Option Rat
  collected_date : String
  season_over_rate : String
  season_attempts : String
  vs_defense_rate : String
  recent_form_3g : String
  home_away_split : String
deriving DecidableEq, Repr

/-- f"{player_name}_{market_type}_{bookmaker}". -/
def propKey (p : RawProp) : String :=
  p.player_name ++ "_" ++ p.market_type ++ "_" ++ p.bookmaker

def propInit (p : RawProp) : PropAcc :=
  { game_id := p.game_id
    player_name := p.player_name
    position := extract_position_from_market p.market_type
    team := determine_player_team p p.home_team p.away_team
    market_type := p.market_type
    bookmaker := p.bookmaker
    data_source := "odds_api"
    over_line := none, over_odds := none
    under_line := none, under_odds := none }

def propUpd (a : PropAcc) (p : RawProp) : PropAcc :=
  if p.line_type = "Over" then
    { a with over_line := p.line_value, over_odds := p.odds }
  else if p.line_type = "Under" then
    { a with under_line := p.line_value, under_odds := p.odds }
  else a

def propToRow (a : PropAcc) (ts : String) : PropRow :=
  { game_id := a.game_id
    player_name := a.player_name
    position := a.position
    team := a.team
    market_type := a.market_type
    bookmaker := a.bookmaker
    data_source := a.data_source
    over_line := orEmpty a.over_line
    over_odds := orEmpty a.over_odds
    under_line := orEmpty a.under_line
    under_odds := orEmpty a.under_odds
    collected_date := ts
    season_over_rate := "N/A"
    season_attempts := "N/A"
    vs_defense_rate := "N/A"
    recent_form_3g := "N/A"
    home_away_split := "N/A" }

/-- NFLDataCollector._process_props_for_snapshot. -/
def process_props_for_snapshot (props_data : List RawProp) (ts : String) :
    List PropRow :=
  (groupRun propKey propInit propUpd props_data).map (fun e => propToRow e.2 ts)

/-! ## NFLDataCollector._process_anytime_td_props_for_snapshot -/

structure TdAcc where
  game_id : String
  player_name : String
  team : String
  bookmaker : String
  data_source : String
  odds : Option Rat
deriving DecidableEq, Repr

structure TdRow where
  game_id : String
  player_name : String
  team : String
  bookmaker : String
  data_source : String
  anytime_td_odds : Option Rat
  collected_date : String
  season_tds : String
  red_zone_targets : String
  goal_line_carries : String
  recent_td_rate : String
deriving DecidableEq, Repr

/-- f"{player_name}_{bookmaker}". -/
def tdKey (p : RawProp) : String :=
  p.player_name ++ "_" ++ p.bookmaker

def tdInit (p : RawProp) : TdAcc :=
  { game_id := p.game_id
    player_name := p.player_name
    team := determine_player_team p p.home_team p.away_team
    bookmaker := p.bookmaker
    data_source := "odds_api"
    odds := none }

def tdUpd (a : TdAcc) (p : RawProp) : TdAcc :=
  if p.line_type = "Over" then { a with odds := p.odds } else a

def tdToRow (a : TdAcc) (ts : String) : TdRow :=
  { game_id := a.game_id
    player_name := a.player_name
    team := a.team
    bookmaker := a.bookmaker
    data_source := a.data_source
    anytime_td_odds := orEmpty a.odds
    collected_date := ts
    season_tds := "N/A"
    red_zone_targets := "N/A"
    goal_line_carries := "N/A"
    recent_td_rate := "N/A" }

/-- NFLDataCollector._process_anytime_td_props_for_snapshot. -/
def process_anytime_td_props_for_snapshot (td_props : List RawProp)
    (ts : String) : List TdRow :=
  (groupRun tdKey tdInit tdUpd td_props).map (fun e => tdToRow e.2 ts)

/-! ## GameDayFilter: NFLDataCollector._filter_games_for_today -/

/-- The per-game predicate of _filter_games_for_today: keep a game whose
UTC date equals the local date today; on Thursday also keep games dated
today + 1 day with UTC hour < 6 (Thursday Night Football crossing UTC
midnight).  Unparsable or missing commence_time drops the game. -/
def gameIsToday (now : LocalNow) (game : RawGame) : Bool :=
  match parseUTC game.commence_time with
  | none => false
  | some (gameDate, gameHour) =>
    if now.weekday.day_name = "thursday" then
      gameDate == now.date || (gameDate == nextDay now.date && gameHour < 6)
    else
      gameDate == now.date

/-- NFLDataCollector._filter_games_for_today. -/
def filter_games_for_today (now : LocalNow) (games_data : List RawGame) :
    List RawGame :=
  games_data.filter (gameIsToday now)

/-! ## SnapshotAssembler: NFLDataCollector.collect_weekly_data -/

/-- The data package written to the collection file (games, props and
anytime-TD props of one snapshot, with their counts). -/
structure DataPackage where
  week : Nat
  snapshot : Nat
  collection_timestamp : String
  games_count : Nat
  props_count : Nat
  anytime_td_props_count : Nat
  games_data : List GameRow
  props_data : List PropRow
  anytime_td_props_data : List TdRow
deriving DecidableEq, Repr

/-- The structured result of a run: every failure dict carries
success=False plus an error string and either the snapshot number or a
next_collection hint; a success carries the assembled package. -/
inductive CollectResult where
  | failure (error : String) (snapshot : Option Nat)
      (next_collection : Option String)
  | success (package : DataPackage)
deriving DecidableEq, Repr

/-- The per-game prop collection loop of collect_weekly_data: ask the API
for each game's props (propsFor game.id, none when the call fails or the
list is empty), separate anytime-TD props, shape both parts and extend the
two accumulating lists. -/
def collectPropsLoop (propsFor : String → Option (List RawProp))
    (ts : String) (props_games : List RawGame) :
    List PropRow × List TdRow :=
  props_games.foldl (fun acc game =>
    match propsFor game.id with
    | none => acc
    | some props =>
      if props.isEmpty then acc
      else
        let parts := separate_anytime_td_props props
        (acc.1 ++ process_props_for_snapshot parts.1 ts,
         acc.2 ++ process_anytime_td_props_for_snapshot parts.2 ts))
    ([], [])

/-- NFLDataCollector.collect_weekly_data.  External effects are passed in:
now is the host local time, all_games the odds API game list (none when
the request failed), propsFor the per-game props API.  force_snapshot
follows the Python truthiness test (0 falls back to the schedule). -/
def collect_weekly_data (week_number : Nat) (force_snapshot : Option Nat)
    (now : LocalNow) (all_games : Option (List RawGame))
    (propsFor : String → Option (List RawProp)) (ts : String) :
    CollectResult :=
  let snapshotOpt : Option Nat :=
    match force_snapshot with
    | some n => if n ≠ 0 then some n else determine_current_snapshot now
    | none => determine_current_snapshot now
  match snapshotOpt with
  | none =>
    .failure "Not a scheduled collection time" none
      (some (get_next_collection_time now))
  | some snapshot_num =>
    match all_games with
    | none => .failure "Failed to retrieve game lines data" (some snapshot_num) none
    | some all_games_data =>
      if all_games_data.isEmpty then
        .failure "Failed to retrieve game lines data" (some snapshot_num) none
      else
        let games_data :=
          if snapshot_num = 1 then all_games_data
          else filter_games_for_today now all_games_data
        if snapshot_num ≠ 1 ∧ games_data.isEmpty then
          .failure "No games scheduled for today - cannot collect final lines"
            (some snapshot_num) none
        else
          let processed_games :=
            process_games_for_snapshot games_data snapshot_num ts
          if should_collect_props_for_snapshot snapshot_num then
            let props_games := if 1 < snapshot_num then games_data else []
            if props_games.isEmpty then
              .failure "No games available for player props" (some snapshot_num) none
            else
              let collected := collectPropsLoop propsFor ts props_games
              .success
                { week := week_number
                  snapshot := snapshot_num
                  collection_timestamp := ts
                  games_count := processed_games.length
                  props_count := collected.1.length
                  anytime_td_props_count := collected.2.length
                  games_data := processed_games
                  props_data := collected.1
                  anytime_td_props_data := collected.2 }
          else
            .success
              { week := week_number
                snapshot := snapshot_num
                collection_timestamp := ts
                games_count := processed_games.length
                props_count := 0
                anytime_td_props_count := 0
                games_data := processed_games
                props_data := []
                anytime_td_props_data := [] }

/-! ## Helper definitions used by the verification -/

/-- The effect of the grouping loop on the single key k, starting from an
optional existing entry value: every outcome with that key updates the
value (initialising it on first sight), every other outcome is ignored. -/
def runFrom {α β : Type} (key : α → String) (init : α → β) (upd : β → α → β)
    (k : String) (b : Option β) (ps : List α) : Option β :=
  ps.foldl (fun acc p =>
    if key p = k then some (upd (acc.getD (init p)) p) else acc) b

/-- The odds recorded by the anytime-TD loop for key k: the price of the
last Over outcome with that key (none if there is none). -/
def lastOverOdds (ps : List RawProp) (k : String) : Option Rat :=
  ps.foldl (fun o p =>
    if tdKey p = k ∧ p.line_type = "Over" then p.odds else o) none

/-- The grouping identity of an emitted regular-prop row, rebuilt the way
_process_props_for_snapshot keys its dict. -/
def propRowKey (r : PropRow) : String :=
  r.player_name ++ "_" ++ r.market_type ++ "_" ++ r.bookmaker

def emptySnapCols : SnapCols := {}

/-! ## Concrete sample data for witnesses and counterexamples -/

/-- The Thursday Night Football game of spec property P2:
kickoff 2025-09-05T00:30:00Z, i.e. Friday 00:30 UTC. -/
def tnfGame : RawGame :=
  { id := "tnf", commence_time := "2025-09-05T00:30:00Z",
    home_team := "Philadelphia Eagles", away_team := "Dallas Cowboys",
    bookmakers := [] }

/-- A one-bookmaker game carrying only a moneyline market, with the two
prices as parameters. -/
def mlGame (home away bk : String) (pHome pAway : Option Rat) : RawGame :=
  { id := "evt", commence_time := "2025-09-07T17:00:00Z",
    home_team := home, away_team := away,
    bookmakers := [{ title := bk, markets :=
      [{ key := "h2h", outcomes :=
        [{ name := home, price := pHome }, { name := away, price := pAway }] }] }] }

/-- A full game with spreads, totals and moneyline under one bookmaker. -/
def sampleGame : RawGame :=
  { id := "evt1", commence_time := "2025-09-07T17:00:00Z",
    home_team := "Dallas Cowboys", away_team := "New York Giants",
    bookmakers := [{ title := "DraftKings", markets :=
      [{ key := "spreads", outcomes :=
          [{ name := "Dallas Cowboys", point := some (-3), price := some (-110) },
           { name := "New York Giants", point := some 3, price := some (-110) }] },
       { key := "totals", outcomes :=
          [{ name := "Over", point := some 45, price := some (-105) },
           { name := "Under", point := some 45, price := some (-115) }] },
       { key := "h2h", outcomes :=
          [{ name := "Dallas Cowboys", price := some (-160) },
           { name := "New York Giants", price := some 140 }] }] }] }

/-- A game whose commence date (2025-09-01) is far from any sample "now". -/
def offTodayGame : RawGame :=
  { id := "old", commence_time := "2025-09-01T17:00:00Z",
    home_team := "Green Bay Packers", away_team := "Chicago Bears",
    bookmakers := [] }

def sampleOverProp : RawProp :=
  { game_id := "evt1", commence_time := "2025-09-07T17:00:00Z",
    home_team := "Dallas Cowboys", away_team := "New York Giants",
    bookmaker := "DraftKings", market_type := "Passing Yards",
    player_name := "Dak Prescott", line_type := "Over",
    line_value := some 250, odds := some (-115) }

def sampleUnderProp : RawProp :=
  { game_id := "evt1", commence_time := "2025-09-07T17:00:00Z",
    home_team := "Dallas Cowboys", away_team := "New York Giants",
    bookmaker := "DraftKings", market_type := "Passing Yards",
    player_name := "Dak Prescott", line_type := "Under",
    line_value := some 250, odds := some (-105) }

/-- An Over prop outcome whose line and odds are both the number 0. -/
def zeroValueProp : RawProp :=
  { game_id := "evt1", commence_time := "2025-09-07T17:00:00Z",
    home_team := "Dallas Cowboys", away_team := "New York Giants",
    bookmaker := "DraftKings", market_type := "Passing Yards",
    player_name := "Dak Prescott", line_type := "Over",
    line_value := some 0, odds := some 0 }

/-- An anytime-TD outcome with Yes price 0. -/
def tdZeroProp : RawProp :=
  { game_id := "evt1", commence_time := "2025-09-07T17:00:00Z",
    home_team := "Dallas Cowboys", away_team := "New York Giants",
    bookmaker := "DraftKings", market_type := "Anytime TD",
    player_name := "CeeDee Lamb", line_type := "Over",
    line_value := none, odds := some 0 }

/-- Two anytime-TD Over outcomes for the same player and bookmaker with
different prices. -/
def tdProp100 : RawProp :=
  { game_id := "evt1", commence_time := "2025-09-07T17:00:00Z",
    home_team := "Dallas Cowboys", away_team := "New York Giants",
    bookmaker := "DraftKings", market_type := "Anytime TD",
    player_name := "CeeDee Lamb", line_type := "Over",
    line_value := none, odds := some 100 }

def tdProp120 : RawProp :=
  { game_id := "evt1", commence_time := "2025-09-07T17:00:00Z",
    home_team := "Dallas Cowboys", away_team := "New York Giants",
    bookmaker := "DraftKings", market_type := "Anytime TD",
    player_name := "CeeDee Lamb", line_type := "Over",
    line_value := none, odds := some 120 }

/-- A props source that always offers one regular prop, used to show that
Opening runs ignore the props API entirely. -/
def samplePropsFor : String → Option (List RawProp) :=
  fun _ => some [sampleOverProp, sampleUnderProp]

/-- A game with one bookmaker holding one unrecognised market, whose row
is therefore the untouched base row. -/
def trivialGame : RawGame :=
  ⟨"t1", "2025-09-07T17:00:00Z", "H", "A",
    [⟨"BK", [⟨"other", [⟨"x", none, none⟩]⟩]⟩]⟩

/-! ## Lemmas about the grouping loop -/

section GroupingLemmas

variable {α β : Type} (key : α → String) (init : α → β) (upd : β → α → β)

theorem findVal_append (k : String) (m l : List (String × β)) :
    findVal k (m ++ l) =
      match findVal k m with
      | some b => some b
      | none => findVal k l := by
  induction m with
  | nil => simp [findVal]
  | cons e es ih =>
    by_cases h : e.1 = k
    · simp [findVal, h]
    · simp [findVal, h, ih]

theorem findVal_eq_none_iff (k : String) (m : List (String × β)) :
    findVal k m = none ↔ ∀ e ∈ m, e.1 ≠ k := by
  induction m with
  | nil => simp [findVal]
  | cons e es ih =>
    by_cases h : e.1 = k
    · simp [findVal, h]
    · simp [findVal, h, ih]

theorem any_key_eq_isSome (k : String) (m : List (String × β)) :
    (m.any fun e => e.1 == k) = (findVal k m).isSome := by
  induction m with
  | nil => simp [findVal]
  | cons e es ih =>
    by_cases h : e.1 = k
    · simp [findVal, h]
    · simp [findVal, h, ih]

theorem findVal_cons (k : String) (e : String × β) (es : List (String × β)) :
    findVal k (e :: es) = if e.1 = k then some e.2 else findVal k es :=
  rfl

theorem findVal_map_update_of_ne (k : String) (p : α) (hk : key p ≠ k) :
    ∀ m : List (String × β),
      findVal k (m.map (fun e => if e.1 == key p then (e.1, upd e.2 p) else e)) =
        findVal k m := by
  intro m
  induction m with
  | nil => rfl
  | cons e es ih =>
    rw [List.map_cons]
    by_cases hp : e.1 = key p
    · rw [if_pos (show (e.1 == key p) = true by rw [beq_iff_eq]; exact hp)]
      have h : ¬ e.1 = k := fun hh => hk (hp.symm.trans hh)
      rw [findVal_cons, findVal_cons, if_neg h, if_neg h]
      exact ih
    · rw [if_neg (show ¬ (e.1 == key p) = true by rw [beq_iff_eq]; exact hp)]
      by_cases h : e.1 = k
      · rw [findVal_cons, findVal_cons, if_pos h, if_pos h]
      · rw [findVal_cons, findVal_cons, if_neg h, if_neg h]
        exact ih

theorem findVal_map_update_of_eq (k : String) (p : α) (hk : key p = k) :
    ∀ m : List (String × β),
      findVal k (m.map (fun e => if e.1 == key p then (e.1, upd e.2 p) else e)) =
        (findVal k m).map (fun b => upd b p) := by
  intro m
  induction m with
  | nil => rfl
  | cons e es ih =>
    rw [List.map_cons]
    by_cases hp : e.1 = key p
    · rw [if_pos (show (e.1 == key p) = true by rw [beq_iff_eq]; exact hp)]
      have h : e.1 = k := hp.trans hk
      rw [findVal_cons, findVal_cons, if_pos h, if_pos h]
      rfl
    · rw [if_neg (show ¬ (e.1 == key p) = true by rw [beq_iff_eq]; exact hp)]
      have h : ¬ e.1 = k := fun hh => hp (hh.trans hk.symm)
      rw [findVal_cons, findVal_cons, if_neg h, if_neg h]
      exact ih

theorem findVal_groupStep (k : String) (m : List (String × β)) (p : α) :
    findVal k (groupStep key init upd m p) =
      if key p = k then some (upd ((findVal k m).getD (init p)) p)
      else findVal k m := by
  unfold groupStep
  by_cases hk : key p = k
  · rw [if_pos hk]
    by_cases hany : (m.any fun e => e.1 == key p) = true
    · rw [if_pos hany, findVal_map_update_of_eq key upd k p hk]
      have hs : (findVal k m).isSome := by
        rw [← any_key_eq_isSome, ← hk]; exact hany
      obtain ⟨b, hb⟩ := Option.isSome_iff_exists.mp hs
      simp [hb]
    · rw [if_neg hany]
      have hnone : findVal k m = none := by
        rw [← Option.not_isSome_iff_eq_none, ← any_key_eq_isSome, ← hk]
        simpa using hany
      rw [findVal_append, hnone]
      simp [findVal, hk, hnone]
  · rw [if_neg hk]
    by_cases hany : (m.any fun e => e.1 == key p) = true
    · rw [if_pos hany, findVal_map_update_of_ne key upd k p hk]
    · rw [if_neg hany, findVal_append]
      cases hfm : findVal k m with
      | none => simp [hfm, findVal, hk]
      | some b => simp [hfm]

theorem findVal_groupFold (k : String) :
    ∀ (ps : List α) (m : List (String × β)),
      findVal k (ps.foldl (groupStep key init upd) m) =
        runFrom key init upd k (findVal k m) ps := by
  intro ps
  induction ps with
  | nil => intro m; simp [runFrom]
  | cons p ps ih =>
    intro m
    rw [List.foldl_cons, ih, findVal_groupStep]
    simp only [runFrom, List.foldl_cons]

theorem groupRun_findVal (k : String) (ps : List α) :
    findVal k (groupRun key init upd ps) = runFrom key init upd k none ps := by
  unfold groupRun
  rw [findVal_groupFold]
  rfl

theorem runFrom_cons (k : String) (b : Option β) (p : α) (ps : List α) :
    runFrom key init upd k b (p :: ps) =
      runFrom key init upd k
        (if key p = k then some (upd (b.getD (init p)) p) else b) ps :=
  rfl

theorem runFrom_isSome_of_isSome (k : String) :
    ∀ (ps : List α) (b : Option β), b.isSome →
      (runFrom key init upd k b ps).isSome := by
  intro ps
  induction ps with
  | nil => intro b hb; simpa [runFrom] using hb
  | cons p ps ih =>
    intro b hb
    rw [runFrom_cons]
    by_cases hk : key p = k
    · rw [if_pos hk]
      exact ih _ rfl
    · rw [if_neg hk]
      exact ih b hb

theorem runFrom_isSome_of_mem (k : String) (p : α) :
    ∀ (ps : List α) (b : Option β), p ∈ ps → key p = k →
      (runFrom key init upd k b ps).isSome := by
  intro ps
  induction ps with
  | nil => intro b h; cases h
  | cons q ps ih =>
    intro b hmem hk
    rw [runFrom_cons]
    rcases List.mem_cons.mp hmem with rfl | hmem'
    · rw [if_pos hk]
      exact runFrom_isSome_of_isSome key init upd k ps _ rfl
    · by_cases hq : key q = k
      · rw [if_pos hq]
        exact runFrom_isSome_of_isSome key init upd k ps _ rfl
      · rw [if_neg hq]
        exact ih b hmem' hk

theorem mem_of_findVal_eq_some (k : String) (b : β) :
    ∀ (m : List (String × β)), findVal k m = some b → (k, b) ∈ m := by
  intro m
  induction m with
  | nil => simp [findVal]
  | cons e es ih =>
    intro h
    by_cases he : e.1 = k
    · rw [findVal, if_pos he] at h
      obtain rfl : e.2 = b := by injection h
      have hke : (k, e.2) = e := by
        obtain ⟨e1, e2⟩ := e
        simp only at he ⊢
        rw [he]
      rw [hke]
      exact List.mem_cons_self _ _
    · rw [findVal, if_neg he] at h
      exact List.mem_cons_of_mem _ (ih h)

theorem mem_groupFold (P : String × β → Prop) :
    ∀ (ps : List α) (m : List (String × β)),
      (∀ e ∈ m, P e) →
      (∀ k b p, p ∈ ps → P (k, b) → P (k, upd b p)) →
      (∀ p ∈ ps, P (key p, upd (init p) p)) →
      ∀ e ∈ ps.foldl (groupStep key init upd) m, P e := by
  intro ps
  induction ps with
  | nil => intro m hm _ _ e he; exact hm e he
  | cons p ps ih =>
    intro m hm hupd hinit e he
    rw [List.foldl_cons] at he
    refine ih (groupStep key init upd m p) ?_ ?_ ?_ e he
    · intro e' he'
      unfold groupStep at he'
      split at he'
      · obtain ⟨e₀, he₀, rfl⟩ := List.mem_map.mp he'
        by_cases hb : (e₀.1 == key p) = true
        · rw [if_pos hb]
          exact hupd e₀.1 e₀.2 p (List.mem_cons_self _ _) (by simpa using hm e₀ he₀)
        · rw [Bool.not_eq_true] at hb
          rw [if_neg (by simp [hb])]
          exact hm e₀ he₀
      · rcases List.mem_append.mp he' with h | h
        · exact hm _ h
        · rw [List.mem_singleton] at h
          subst h
          exact hinit p (List.mem_cons_self _ _)
    · intro k b q hq hP
      exact hupd k b q (List.mem_cons_of_mem _ hq) hP
    · intro q hq
      exact hinit q (List.mem_cons_of_mem _ hq)

theorem mem_groupRun (P : String × β → Prop) (ps : List α)
    (hupd : ∀ k b p, p ∈ ps → P (k, b) → P (k, upd b p))
    (hinit : ∀ p ∈ ps, P (key p, upd (init p) p)) :
    ∀ e ∈ groupRun key init upd ps, P e :=
  mem_groupFold key init upd P ps [] (by simp) hupd hinit

theorem groupStep_keys (m : List (String × β)) (p : α) :
    (groupStep key init upd m p).map Prod.fst =
      if (m.any fun e => e.1 == key p) = true then m.map Prod.fst
      else m.map Prod.fst ++ [key p] := by
  unfold groupStep
  by_cases hany : (m.any fun e => e.1 == key p) = true
  · rw [if_pos hany, if_pos hany, List.map_map]
    apply List.map_congr_left
    intro e _
    by_cases hp : e.1 = key p <;> simp [hp]
  · rw [if_neg hany, if_neg hany, List.map_append]
    simp

theorem groupFold_keys_nodup :
    ∀ (ps : List α) (m : List (String × β)), (m.map Prod.fst).Nodup →
      ((ps.foldl (groupStep key init upd) m).map Prod.fst).Nodup := by
  intro ps
  induction ps with
  | nil => intro m hm; exact hm
  | cons p ps ih =>
    intro m hm
    rw [List.foldl_cons]
    apply ih
    rw [groupStep_keys]
    by_cases hany : (m.any fun e => e.1 == key p) = true
    · rw [if_pos hany]; exact hm
    · rw [if_neg hany]
      have hnotmem : key p ∉ m.map Prod.fst := by
        intro hk
        obtain ⟨e, he, hke⟩ := List.mem_map.mp hk
        apply hany
        rw [List.any_eq_true]
        exact ⟨e, he, by rw [beq_iff_eq, hke]⟩
      rw [List.nodup_append]
      refine ⟨hm, List.nodup_singleton _, ?_⟩
      intro a ha hb
      rw [List.mem_singleton] at hb
      subst hb
      exact hnotmem ha

theorem groupRun_keys_nodup (ps : List α) :
    ((groupRun key init upd ps).map Prod.fst).Nodup :=
  groupFold_keys_nodup key init upd ps [] (by simp)

end GroupingLemmas

/-! ## Lemmas specialised to the two prop groupings -/

theorem tdUpd_player (a : TdAcc) (p : RawProp) :
    (tdUpd a p).player_name = a.player_name := by
  unfold tdUpd
  split <;> rfl

theorem tdUpd_bookmaker (a : TdAcc) (p : RawProp) :
    (tdUpd a p).bookmaker = a.bookmaker := by
  unfold tdUpd
  split <;> rfl

theorem propUpd_fields (a : PropAcc) (p : RawProp) :
    (propUpd a p).player_name = a.player_name ∧
    (propUpd a p).market_type = a.market_type ∧
    (propUpd a p).bookmaker = a.bookmaker := by
  unfold propUpd
  split_ifs <;> exact ⟨rfl, rfl, rfl⟩

theorem runFrom_td_odds (k : String) :
    ∀ (ps : List RawProp) (b : Option TdAcc) (c : TdAcc),
      runFrom tdKey tdInit tdUpd k b ps = some c →
      c.odds = ps.foldl
        (fun o p => if tdKey p = k ∧ p.line_type = "Over" then p.odds else o)
        (match b with | some x => x.odds | none => none) := by
  intro ps
  induction ps with
  | nil =>
    intro b c h
    simp only [runFrom, List.foldl_nil] at h ⊢
    subst h
    rfl
  | cons p ps ih =>
    intro b c h
    rw [runFrom_cons] at h
    rw [List.foldl_cons]
    by_cases hk : tdKey p = k
    · rw [if_pos hk] at h
      rw [ih _ c h]
      congr 1
      by_cases hov : p.line_type = "Over"
      · rw [if_pos ⟨hk, hov⟩]
        simp [tdUpd, hov]
      · rw [if_neg (fun hh => hov hh.2)]
        cases b <;> simp [tdUpd, tdInit, hov]
    · rw [if_neg hk] at h
      rw [ih b c h]
      congr 1
      rw [if_neg (fun hh => hk hh.1)]

theorem process_props_keys_nodup (ps : List RawProp) (ts : String) :
    ((process_props_for_snapshot ps ts).map propRowKey).Nodup := by
  unfold process_props_for_snapshot
  rw [List.map_map]
  have hinv : ∀ e ∈ groupRun propKey propInit propUpd ps,
      e.2.player_name ++ "_" ++ e.2.market_type ++ "_" ++ e.2.bookmaker = e.1 := by
    refine mem_groupRun propKey propInit propUpd _ ps ?_ ?_
    · intro k b p _ hP
      obtain ⟨h1, h2, h3⟩ := propUpd_fields b p
      rw [h1, h2, h3]
      exact hP
    · intro p _
      obtain ⟨h1, h2, h3⟩ := propUpd_fields (propInit p) p
      rw [h1, h2, h3]
      rfl
  have heq : (groupRun propKey propInit propUpd ps).map
        (propRowKey ∘ fun e => propToRow e.2 ts) =
      (groupRun propKey propInit propUpd ps).map Prod.fst := by
    apply List.map_congr_left
    intro e he
    have h := hinv e he
    simpa [propRowKey, propToRow] using h
  rw [heq]
  exact groupRun_keys_nodup propKey propInit propUpd ps

theorem process_props_market_ne (ps : List RawProp) (ts : String)
    (hps : ∀ p ∈ ps, p.market_type ≠ "Anytime TD") :
    ∀ r ∈ process_props_for_snapshot ps ts, r.market_type ≠ "Anytime TD" := by
  intro r hr
  unfold process_props_for_snapshot at hr
  obtain ⟨e, he, rfl⟩ := List.mem_map.mp hr
  have hinv : ∀ e ∈ groupRun propKey propInit propUpd ps,
      e.2.market_type ≠ "Anytime TD" := by
    refine mem_groupRun propKey propInit propUpd _ ps ?_ ?_
    · intro k b p _ hP
      obtain ⟨_, h2, _⟩ := propUpd_fields b p
      rw [h2]
      exact hP
    · intro p hpmem
      obtain ⟨_, h2, _⟩ := propUpd_fields (propInit p) p
      rw [h2]
      exact hps p hpmem
  have h := hinv e he
  simpa [propToRow] using h

theorem td_row_exists (td : List RawProp) (ts : String) (p : RawProp)
    (hp : p ∈ td) :
    ∃ r ∈ process_anytime_td_props_for_snapshot td ts,
      r.player_name ++ "_" ++ r.bookmaker = tdKey p ∧
      r.anytime_td_odds = orEmpty (lastOverOdds td (tdKey p)) := by
  have hsome : (findVal (tdKey p) (groupRun tdKey tdInit tdUpd td)).isSome := by
    rw [groupRun_findVal]
    exact runFrom_isSome_of_mem tdKey tdInit tdUpd (tdKey p) p td none hp rfl
  obtain ⟨c, hc⟩ := Option.isSome_iff_exists.mp hsome
  have hmem : (tdKey p, c) ∈ groupRun tdKey tdInit tdUpd td :=
    mem_of_findVal_eq_some _ _ _ hc
  have hodds : c.odds = lastOverOdds td (tdKey p) := by
    have hrun : runFrom tdKey tdInit tdUpd (tdKey p) none td = some c := by
      rw [← groupRun_findVal]
      exact hc
    have h := runFrom_td_odds (tdKey p) td none c hrun
    simpa [lastOverOdds] using h
  have hkey : ∀ e ∈ groupRun tdKey tdInit tdUpd td,
      e.2.player_name ++ "_" ++ e.2.bookmaker = e.1 := by
    refine mem_groupRun tdKey tdInit tdUpd _ td ?_ ?_
    · intro k b q _ hP
      rw [tdUpd_player, tdUpd_bookmaker]
      exact hP
    · intro q _
      rw [tdUpd_player, tdUpd_bookmaker]
      rfl
  refine ⟨tdToRow c ts, List.mem_map_of_mem _ hmem, ?_, ?_⟩
  · have h := hkey _ hmem
    simpa [tdToRow] using h
  · simp [tdToRow, hodds]

/-! ## Lemmas about the game shaper -/

theorem writeSnap_final_of_opening (r : GameRow) (f : SnapCols → SnapCols) :
    (writeSnap r "opening" f).final = r.final := by
  rw [writeSnap, if_pos rfl]

theorem writeSnap_opening_of_final (r : GameRow) (f : SnapCols → SnapCols) :
    (writeSnap r "final" f).opening = r.opening := by
  rw [writeSnap, if_neg (by decide)]

theorem foldl_preserve {γ δ : Type} (step : γ → δ → γ) (P : γ → Prop)
    (hstep : ∀ x a, P x → P (step x a)) :
    ∀ (l : List δ) (x : γ), P x → P (l.foldl step x) := by
  intro l
  induction l with
  | nil => intro x hx; exact hx
  | cons a l ih =>
    intro x hx
    exact ih _ (hstep x a hx)

theorem processMarket_preserves_final (home away ts : String) (m : MarketData)
    (r : GameRow) :
    (processMarket home away "opening" ts r m).final = r.final := by
  unfold processMarket
  split_ifs with h1 h2 h3
  · rw [writeSnap_final_of_opening]
    refine foldl_preserve _ (fun x => x.final = r.final) ?_ m.outcomes r rfl
    intro x o hx
    split_ifs <;> simp [writeSnap_final_of_opening, hx]
  · refine foldl_preserve _ (fun x => x.final = r.final) ?_ m.outcomes r rfl
    intro x o hx
    split_ifs <;> simp [writeSnap_final_of_opening, hx]
  · refine foldl_preserve _ (fun x => x.final = r.final) ?_ m.outcomes r rfl
    intro x o hx
    split_ifs <;> simp [writeSnap_final_of_opening, hx]
  · rfl

theorem processMarket_preserves_opening (home away ts : String) (m : MarketData)
    (r : GameRow) :
    (processMarket home away "final" ts r m).opening = r.opening := by
  unfold processMarket
  split_ifs with h1 h2 h3
  · rw [writeSnap_opening_of_final]
    refine foldl_preserve _ (fun x => x.opening = r.opening) ?_ m.outcomes r rfl
    intro x o hx
    split_ifs <;> simp [writeSnap_opening_of_final, hx]
  · refine foldl_preserve _ (fun x => x.opening = r.opening) ?_ m.outcomes r rfl
    intro x o hx
    split_ifs <;> simp [writeSnap_opening_of_final, hx]
  · refine foldl_preserve _ (fun x => x.opening = r.opening) ?_ m.outcomes r rfl
    intro x o hx
    split_ifs <;> simp [writeSnap_opening_of_final, hx]
  · rfl

theorem length_flatMap_singleton {γ δ : Type} (l : List γ) (f : γ → List δ)
    (hf : ∀ x ∈ l, (f x).length = 1) : (l.flatMap f).length = l.length := by
  induction l with
  | nil => rfl
  | cons x xs ih =>
    rw [List.flatMap_cons, List.length_append,
      hf x (List.mem_cons_self _ _),
      ih (fun y hy => hf y (List.mem_cons_of_mem _ hy))]
    rw [List.length_cons, Nat.add_comm]

theorem process_games_length (games : List RawGame) (snap : Nat) (ts : String)
    (hbk : ∀ g ∈ games, ∀ b ∈ g.bookmakers, ¬ b.markets.isEmpty) :
    (process_games_for_snapshot games snap ts).length =
      (games.map (fun g => g.bookmakers.length)).sum := by
  induction games with
  | nil => rfl
  | cons g gs ih =>
    simp only [process_games_for_snapshot, List.flatMap_cons, List.length_append,
      List.map_cons, List.sum_cons]
    have htail := ih (fun g' hg' => hbk g' (List.mem_cons_of_mem _ hg'))
    simp only [process_games_for_snapshot] at htail
    rw [htail]
    congr 1
    by_cases hge : g.bookmakers.isEmpty
    · rw [if_pos hge]
      rw [List.isEmpty_iff.mp hge]
      rfl
    · rw [if_neg hge]
      exact length_flatMap_singleton _ _ (fun bk hbkm => by
        rw [if_neg (hbk g (List.mem_cons_self _ _) bk hbkm)]
        rfl)

/-! ## Claim theorems -/

/-- C1: the snapshot resolver follows the documented day/hour matrix:
Tuesday from 10:00 gives snapshot 1 (the opening kind), Thursday from
15:00 gives 2, Friday from 15:00 gives 3, Saturday from 10:00 gives 4,
Sunday from 08:00 before 13:00 gives 5, Monday from 15:00 gives 6 (all of
the final kind); in particular Thursday 16:00 resolves to snapshot 2, and
Sunday 07:59 (hour 7) is not matched by the snapshot-5 window rule. -/
theorem c1_window_matrix (now : LocalNow) :
    (now.weekday = .tuesday → 10 ≤ now.hour →
      determine_current_snapshot now = some 1) ∧
    (now.weekday = .thursday → 15 ≤ now.hour →
      determine_current_snapshot now = some 2) ∧
    (now.weekday = .friday → 15 ≤ now.hour →
      determine_current_snapshot now = some 3) ∧
    (now.weekday = .saturday → 10 ≤ now.hour →
      determine_current_snapshot now = some 4) ∧
    (now.weekday = .sunday → 8 ≤ now.hour → now.hour < 13 →
      determine_current_snapshot now = some 5) ∧
    (now.weekday = .monday → 15 ≤ now.hour →
      determine_current_snapshot now = some 6) ∧
    (snapshot_type 1 = "opening" ∧ ∀ n, n ≠ 1 → snapshot_type n = "final") ∧
    snapshot_window Weekday.sunday.pyNum 7 = none := by
  refine ⟨?_, ?_, ?_, ?_, ?_, ?_, ⟨rfl, ?_⟩, rfl⟩
  · intro hw hh
    simp [determine_current_snapshot, snapshot_window, hw, Weekday.pyNum, hh]
  · intro hw hh
    simp [determine_current_snapshot, snapshot_window, hw, Weekday.pyNum, hh]
  · intro hw hh
    simp [determine_current_snapshot, snapshot_window, hw, Weekday.pyNum, hh]
  · intro hw hh
    simp [determine_current_snapshot, snapshot_window, hw, Weekday.pyNum, hh]
  · intro hw hh hl
    simp [determine_current_snapshot, snapshot_window, hw, Weekday.pyNum, hh, hl]
  · intro hw hh
    simp [determine_current_snapshot, snapshot_window, hw, Weekday.pyNum, hh]
  · intro n hn
    simp [snapshot_type, hn]

/-- C1 witness: Thursday 16:00 resolves to snapshot 2. -/
theorem c1_window_matrix_witness :
    determine_current_snapshot ⟨⟨2025, 9, 4⟩, .thursday, 16⟩ = some 2 :=
  (c1_window_matrix ⟨⟨2025, 9, 4⟩, .thursday, 16⟩).2.1 rfl (by decide)

/-- C2 counterexample: the TNF game at 2025-09-05T00:30:00Z IS kept by the
filter when now is Friday 2025-09-05 local, contrary to the claim that it
is excluded then: the standard same-UTC-date rule matches. -/
theorem c2_counterexample :
    filter_games_for_today ⟨⟨2025, 9, 5⟩, .friday, 10⟩ [tnfGame] = [tnfGame] := by
  decide

/-- C2 amended: the game at 2025-09-05T00:30:00Z (Friday 00:30 UTC) is
kept when now is Thursday 2025-09-04 local (via the Thursday special
case), and it is ALSO kept when now is Friday 2025-09-05 local, because
the game's UTC date equals that local date; the special next-day case
itself is gated on Thursday, so on Wednesday 2025-09-03 the game is not
kept.  The local hour plays no role in the filter. -/
theorem c2_tnf_filter (hThu hFri hWed : Nat) :
    filter_games_for_today ⟨⟨2025, 9, 4⟩, .thursday, hThu⟩ [tnfGame] = [tnfGame] ∧
    filter_games_for_today ⟨⟨2025, 9, 5⟩, .friday, hFri⟩ [tnfGame] = [tnfGame] ∧
    filter_games_for_today ⟨⟨2025, 9, 3⟩, .wednesday, hWed⟩ [tnfGame] = [] := by
  refine ⟨?_, ?_, ?_⟩ <;> rfl

/-- C2 witness: the amended statement at concrete hours. -/
theorem c2_tnf_filter_witness :
    filter_games_for_today ⟨⟨2025, 9, 4⟩, .thursday, 20⟩ [tnfGame] = [tnfGame] :=
  (c2_tnf_filter 20 10 10).1

/-- C3: evaluation of the resolver at the failing input.  On Monday
before 15:00 the resolver returns none instead of the fallback snapshot 6
the claim describes: the fallback chain is guarded by day_of_week >= 1
and Python's Monday is 0, so its Monday branch is unreachable.  The rest
of the fallback map does behave as claimed (Wednesday gives 2). -/
theorem c3_monday_fallback_gap :
    determine_current_snapshot ⟨⟨2025, 9, 8⟩, .monday, 10⟩ = none ∧
    snapshot_fallback 0 = none ∧
    determine_current_snapshot ⟨⟨2025, 9, 3⟩, .wednesday, 12⟩ = some 2 := by
  decide

/-- C10: the game id uses only the first ten characters of the commence
time and the four-letter space-stripped uppercased team prefixes, so two
same-date games between different teams can collide: New York Giants and
New York Jets both abbreviate to NEWY. -/
theorem c10_game_id_collision :
    (∀ g₁ g₂ : RawGame,
      strTake g₁.commence_time 10 = strTake g₂.commence_time 10 →
      teamAbbr g₁.home_team = teamAbbr g₂.home_team →
      teamAbbr g₁.away_team = teamAbbr g₂.away_team →
      generate_game_id g₁ = generate_game_id g₂) ∧
    teamAbbr "New York Giants" = "NEWY" ∧
    teamAbbr "New York Jets" = "NEWY" ∧
    generate_game_id
        ⟨"a", "2025-09-07T17:00:00Z", "New York Giants", "Dallas Cowboys", []⟩ =
      generate_game_id
        ⟨"b", "2025-09-07T20:00:00Z", "New York Jets", "Dallas Cowboys", []⟩ := by
  refine ⟨?_, by decide, by decide, by decide⟩
  intro g₁ g₂ h1 h2 h3
  unfold generate_game_id
  rw [h1, h2, h3]

/-- C4: feeding one Over and one Under outcome of the same
(player, market, bookmaker) key (from the same game) to the regular-prop
shaper yields, in either order, the same single row, whose over side
comes from the Over outcome and whose under side comes from the Under
outcome; and in general no two emitted rows ever share a grouping key. -/
theorem c4_prop_merge (o u : RawProp) (ts : String)
    (ho : o.line_type = "Over") (hu : u.line_type = "Under")
    (hp : o.player_name = u.player_name) (hm : o.market_type = u.market_type)
    (hb : o.bookmaker = u.bookmaker) (hg : o.game_id = u.game_id) :
    process_props_for_snapshot [o, u] ts = process_props_for_snapshot [u, o] ts ∧
    (process_props_for_snapshot [o, u] ts).length = 1 ∧
    (∀ r ∈ process_props_for_snapshot [o, u] ts,
      r.over_line = orEmpty o.line_value ∧ r.over_odds = orEmpty o.odds ∧
      r.under_line = orEmpty u.line_value ∧ r.under_odds = orEmpty u.odds) ∧
    (∀ ps : List RawProp,
      ((process_props_for_snapshot ps ts).map propRowKey).Nodup) := by
  have hko : propKey o = propKey u := by
    simp [propKey, hp, hm, hb]
  have hrows : process_props_for_snapshot [o, u] ts =
      [propToRow (propUpd (propUpd (propInit o) o) u) ts] := by
    simp [process_props_for_snapshot, groupRun, groupStep, hko]
  have hrows' : process_props_for_snapshot [u, o] ts =
      [propToRow (propUpd (propUpd (propInit u) u) o) ts] := by
    simp [process_props_for_snapshot, groupRun, groupStep, hko]
  have hacc : propUpd (propUpd (propInit o) o) u =
      propUpd (propUpd (propInit u) u) o := by
    simp [propUpd, propInit, determine_player_team, ho, hu, hp, hm, hb, hg]
  refine ⟨?_, ?_, ?_, fun ps => process_props_keys_nodup ps ts⟩
  · rw [hrows, hrows', hacc]
  · rw [hrows]
    rfl
  · intro r hr
    rw [hrows, List.mem_singleton] at hr
    subst hr
    refine ⟨?_, ?_, ?_, ?_⟩ <;> simp [propToRow, propUpd, ho, hu]

/-- C4 witness: a concrete Over/Under pair for the same key. -/
theorem c4_prop_merge_witness :
    process_props_for_snapshot [sampleOverProp, sampleUnderProp] "t" =
      process_props_for_snapshot [sampleUnderProp, sampleOverProp] "t" ∧
    (process_props_for_snapshot [sampleOverProp, sampleUnderProp] "t").length = 1 :=
  ⟨(c4_prop_merge sampleOverProp sampleUnderProp "t"
      rfl rfl rfl rfl rfl rfl).1,
   (c4_prop_merge sampleOverProp sampleUnderProp "t"
      rfl rfl rfl rfl rfl rfl).2.1⟩

/-- C5 counterexample: an Over prop outcome whose line value and odds are
the number 0 is emitted with EMPTY over fields, not 0: the shaper's
Python x-or-empty coalescing erases numeric zero. -/
theorem c5_counterexample :
    zeroValueProp.line_value = some 0 ∧ zeroValueProp.odds = some 0 ∧
    (process_props_for_snapshot [zeroValueProp] "t").map
        (fun r => (r.over_line, r.over_odds)) = [(none, none)] := by
  decide

/-- C5 amended: a moneyline outcome's price is copied verbatim into the
GameRow field of the run's snapshot kind (0 stays 0, absent stays
absent); but in PlayerProp rows the over/under fields pass through
orEmpty, so a 0 value is rendered as the empty field exactly like an
absent one, and only nonzero values survive unchanged. -/
theorem c5_zero_handling :
    (∀ (home away bk ts : String) (pH pA : Option Rat), ¬ away = home →
      ((process_games_for_snapshot [mlGame home away bk pH pA] 1 ts).map
          (fun r => r.opening.ml_home) = [pH] ∧
       (process_games_for_snapshot [mlGame home away bk pH pA] 2 ts).map
          (fun r => r.final.ml_home) = [pH])) ∧
    (∀ (q : RawProp) (ts : String), q.line_type = "Over" →
      ((process_props_for_snapshot [q] ts).map (fun r => r.over_odds) =
          [orEmpty q.odds] ∧
       (process_props_for_snapshot [q] ts).map (fun r => r.over_line) =
          [orEmpty q.line_value])) ∧
    orEmpty (some 0) = none ∧ orEmpty none = none ∧
    (∀ x : Rat, x ≠ 0 → orEmpty (some x) = some x) := by
  refine ⟨?_, ?_, rfl, rfl, ?_⟩
  · intro home away bk ts pH pA hne
    constructor <;>
      simp [process_games_for_snapshot, mlGame, processMarket, writeSnap,
        snapshot_type, hne]
  · intro q ts hov
    constructor <;>
      simp [process_props_for_snapshot, groupRun, groupStep, propToRow,
        propUpd, propInit, hov]
  · intro x hx
    simp [orEmpty, hx]

/-- C5 witness: a 0 moneyline price survives into the game row while a 0
prop odds value is erased to the empty field. -/
theorem c5_zero_handling_witness :
    (process_games_for_snapshot
        [mlGame "Dallas Cowboys" "New York Giants" "DK" (some 0) (some 120)]
        1 "t").map (fun r => r.opening.ml_home) = [some 0] ∧
    (process_props_for_snapshot [zeroValueProp] "t").map
      (fun r => r.over_odds) = [orEmpty (some 0)] :=
  ⟨(c5_zero_handling.1 "Dallas Cowboys" "New York Giants" "DK" "t"
      (some 0) (some 120) (by decide)).1,
   (c5_zero_handling.2.1 zeroValueProp "t" rfl).1⟩

/-- C6 counterexample: an anytime-TD Over outcome with price 0 lands in
the TD output with an EMPTY odds field, not with its price; and of two
Over outcomes for the same player and bookmaker only the later price
survives, so the earlier outcome does not appear with its price. -/
theorem c6_counterexample :
    tdZeroProp.odds = some 0 ∧
    (process_anytime_td_props_for_snapshot
        (separate_anytime_td_props [tdZeroProp]).2 "t").map
      (fun r => r.anytime_td_odds) = [none] ∧
    (process_anytime_td_props_for_snapshot
        (separate_anytime_td_props [tdProp100, tdProp120]).2 "t").map
      (fun r => r.anytime_td_odds) = [some 120] := by
  decide

/-- C6 amended: the partition of raw outcomes happens before any
grouping; no row of the regular-prop output carries the anytime-TD
market; an anytime-TD outcome is never in the regular partition; and
every anytime-TD Over outcome is represented in the TD output by the row
of its (player, bookmaker) key, whose odds field is the price of the
last Over outcome for that key passed through orEmpty (0 or absent
becomes the empty field). -/
theorem c6_anytime_td_isolation (ps : List RawProp) (ts : String) :
    (∀ r ∈ process_props_for_snapshot (separate_anytime_td_props ps).1 ts,
      r.market_type ≠ market_display_name "player_anytime_td") ∧
    (∀ p ∈ ps, p.market_type = market_display_name "player_anytime_td" →
      p ∉ (separate_anytime_td_props ps).1 ∧
      (p.line_type = "Over" →
        ∃ r ∈ process_anytime_td_props_for_snapshot
            (separate_anytime_td_props ps).2 ts,
          r.player_name ++ "_" ++ r.bookmaker = tdKey p ∧
          r.anytime_td_odds =
            orEmpty (lastOverOdds
              (separate_anytime_td_props ps).2 (tdKey p)))) := by
  have hdisp : market_display_name "player_anytime_td" = "Anytime TD" := rfl
  constructor
  · rw [hdisp]
    apply process_props_market_ne
    intro p hp
    simp [separate_anytime_td_props, List.mem_filter] at hp
    exact hp.2
  · intro p hpmem hmkt
    rw [hdisp] at hmkt
    constructor
    · intro hin
      simp [separate_anytime_td_props, List.mem_filter] at hin
      exact hin.2 hmkt
    · intro hov
      apply td_row_exists
      simp [separate_anytime_td_props, List.mem_filter]
      exact ⟨hpmem, hmkt⟩

/-- C6 witness: a concrete anytime-TD outcome stays out of the regular
partition. -/
theorem c6_anytime_td_isolation_witness :
    tdProp100 ∉ (separate_anytime_td_props [tdProp100]).1 :=
  ((c6_anytime_td_isolation [tdProp100] "t").2 tdProp100
    (List.mem_singleton.mpr rfl) rfl).1

/-- C7: an Opening run (snapshot 1) shapes the whole weekly feed without
the game-day filter and returns empty props and TD-props collections;
props are collected exactly for snapshot numbers greater than 1; and with
every bookmaker carrying markets the games output has one row per
game-bookmaker pair. -/
theorem c7_opening_run (week : Nat) (now : LocalNow) (gs : List RawGame)
    (propsFor : String → Option (List RawProp)) (ts : String)
    (hne : gs ≠ []) :
    (collect_weekly_data week (some 1) now (some gs) propsFor ts =
      CollectResult.success
        { week := week
          snapshot := 1
          collection_timestamp := ts
          games_count := (process_games_for_snapshot gs 1 ts).length
          props_count := 0
          anytime_td_props_count := 0
          games_data := process_games_for_snapshot gs 1 ts
          props_data := []
          anytime_td_props_data := [] }) ∧
    (∀ n : Nat, should_collect_props_for_snapshot n = decide (1 < n)) ∧
    ((∀ g ∈ gs, ∀ b ∈ g.bookmakers, ¬ b.markets.isEmpty) →
      (process_games_for_snapshot gs 1 ts).length =
        (gs.map (fun g => g.bookmakers.length)).sum) := by
  have hempty : gs.isEmpty = false := by
    cases gs with
    | nil => exact absurd rfl hne
    | cons a l => rfl
  refine ⟨?_, fun n => rfl, fun hbk => process_games_length gs 1 ts hbk⟩
  simp [collect_weekly_data, hempty, should_collect_props_for_snapshot]

/-- C7 witness: an Opening run over one game with a props source that
does offer props still returns empty props collections. -/
theorem c7_opening_run_witness :
    collect_weekly_data 1 (some 1) ⟨⟨2025, 9, 2⟩, .tuesday, 11⟩
        (some [sampleGame]) samplePropsFor "t" =
      CollectResult.success
        { week := 1
          snapshot := 1
          collection_timestamp := "t"
          games_count := (process_games_for_snapshot [sampleGame] 1 "t").length
          props_count := 0
          anytime_td_props_count := 0
          games_data := process_games_for_snapshot [sampleGame] 1 "t"
          props_data := []
          anytime_td_props_data := [] } :=
  (c7_opening_run 1 ⟨⟨2025, 9, 2⟩, .tuesday, 11⟩ [sampleGame]
    samplePropsFor "t" (by decide)).1

/-- C8 counterexample: a Final run whose filter keeps no games returns
only the failure record with the error string and the snapshot number;
no component of the result holds the week's game list (the games are
only printed, and only the first five of them). -/
theorem c8_counterexample :
    collect_weekly_data 1 (some 2) ⟨⟨2025, 9, 4⟩, .thursday, 16⟩
        (some [offTodayGame]) (fun _ => none) "t" =
      CollectResult.failure
        "No games scheduled for today - cannot collect final lines"
        (some 2) none := by
  decide

/-- C8 amended: a Final-kind run (snapshot at least 2) on a nonempty
weekly feed whose game-day filter yields no games returns the structured
failure whose error mentions no games scheduled for today, together with
the snapshot number; the available games are not part of the result. -/
theorem c8_no_games_today (week snap : Nat) (now : LocalNow)
    (gs : List RawGame) (propsFor : String → Option (List RawProp))
    (ts : String) (hsnap : 2 ≤ snap) (hne : gs ≠ [])
    (hfilter : filter_games_for_today now gs = []) :
    collect_weekly_data week (some snap) now (some gs) propsFor ts =
      CollectResult.failure
        "No games scheduled for today - cannot collect final lines"
        (some snap) none ∧
    strContains
      (strLower "No games scheduled for today - cannot collect final lines")
      "no games scheduled for today" = true := by
  have h0 : snap ≠ 0 := by omega
  have h1 : snap ≠ 1 := by omega
  have hempty : gs.isEmpty = false := by
    cases gs with
    | nil => exact absurd rfl hne
    | cons a l => rfl
  refine ⟨?_, by decide⟩
  simp [collect_weekly_data, h0, h1, hempty, hfilter]

/-- C8 witness: a Thursday Final run over a game scheduled on another
day. -/
theorem c8_no_games_today_witness :
    collect_weekly_data 1 (some 2) ⟨⟨2025, 9, 4⟩, .thursday, 16⟩
        (some [offTodayGame]) samplePropsFor "t" =
      CollectResult.failure
        "No games scheduled for today - cannot collect final lines"
        (some 2) none :=
  (c8_no_games_today 1 2 ⟨⟨2025, 9, 4⟩, .thursday, 16⟩ [offTodayGame]
    samplePropsFor "t" (by decide) (by decide) (by decide)).1

/-- C9: every emitted game row carries odds only in the record of the
run's snapshot kind: a snapshot-1 (opening) run leaves the nine final
columns at their initial empty values, and any other snapshot number
leaves the nine opening columns empty. -/
theorem c9_single_kind_writes (games : List RawGame) (snap : Nat)
    (ts : String) :
    ∀ r ∈ process_games_for_snapshot games snap ts,
      (snap = 1 → r.final = emptySnapCols) ∧
      (snap ≠ 1 → r.opening = emptySnapCols) := by
  intro r hr
  unfold process_games_for_snapshot at hr
  obtain ⟨g, hg, hr2⟩ := List.mem_flatMap.mp hr
  by_cases hbe : g.bookmakers.isEmpty
  · rw [if_pos hbe] at hr2
    cases hr2
  · rw [if_neg hbe] at hr2
    obtain ⟨bk, hbk, hr3⟩ := List.mem_flatMap.mp hr2
    by_cases hme : bk.markets.isEmpty
    · rw [if_pos hme] at hr3
      cases hr3
    · rw [if_neg hme] at hr3
      rw [List.mem_singleton] at hr3
      subst hr3
      constructor
      · intro h1
        have hty : snapshot_type snap = "opening" := by
          rw [snapshot_type, if_pos h1]
        rw [hty]
        refine foldl_preserve _ (fun x : GameRow => x.final = emptySnapCols) ?_
          bk.markets _ rfl
        intro x m hx
        rw [processMarket_preserves_final]
        exact hx
      · intro h1
        have hty : snapshot_type snap = "final" := by
          rw [snapshot_type, if_neg h1]
        rw [hty]
        refine foldl_preserve _ (fun x : GameRow => x.opening = emptySnapCols) ?_
          bk.markets _ rfl
        intro x m hx
        rw [processMarket_preserves_opening]
        exact hx

/-- C9 witness: the single row of a snapshot-1 run over a game whose only
market is unrecognised is the untouched base row, with empty final
columns. -/
theorem c9_single_kind_writes_witness :
    (GameRow.final
      ⟨"NFL_2025_2025-09-07_A_H", "2025-09-07T17:00:00Z", "H", "A", "BK",
        emptySnapCols, emptySnapCols⟩) = emptySnapCols :=
  (c9_single_kind_writes [trivialGame] 1 "t"
    ⟨"NFL_2025_2025-09-07_A_H", "2025-09-07T17:00:00Z", "H", "A", "BK",
      emptySnapCols, emptySnapCols⟩ (by decide)).1 rfl

/-- C10 witness: the dependency fact applied to the two colliding games. -/
theorem c10_game_id_collision_witness :
    generate_game_id
        ⟨"a", "2025-09-07T17:00:00Z", "New York Giants", "Dallas Cowboys", []⟩ =
      generate_game_id
        ⟨"b", "2025-09-07T20:00:00Z", "New York Jets", "Dallas Cowboys", []⟩ :=
  c10_game_id_collision.1 _ _ (by decide) (by decide) (by decide)

end SharpShooter
